import Mathlib

/-!
Verification of the network connectivity test orchestrator of cluster-probe
(package nettest).  Go strings are modelled as lists of byte values
(the Go code iterates strings byte by byte, e.g. in sanitizeNodeName),
the Kubernetes API and the remote-exec capability are modelled as
oracles supplied to each operation, and each Go function of the nettest
package is translated into an executable Lean definition.
-/

namespace ClusterProbe

/-- A Go string, as its list of byte values. -/
abbrev GoStr := List Nat

/-- Byte list of an ASCII string literal (all literals in the source are ASCII). -/
def gostr (s : String) : GoStr := s.toList.map Char.toNat

/-- The fixed diagnostic namespace name, constant testNamespace in the source. -/
def testNamespace : GoStr := gostr "cluster-probe-nettest"

/-- One byte of the output of sanitizeNodeName, from the per-byte branch in the
source: bytes in the ranges a-z, 0-9 and the dash are kept, A-Z is shifted
to lowercase by adding 32, and every other byte becomes a dash (45). -/
def sanitizeByte (c : Nat) : Nat :=
  if (97 ≤ c ∧ c ≤ 122) ∨ (48 ≤ c ∧ c ≤ 57) ∨ c = 45 then c
  else if 65 ≤ c ∧ c ≤ 90 then c + 32
  else 45

/-- sanitizeNodeName from the source: map every byte through the branch above,
then truncate to 50 bytes when the result is longer. -/
def sanitizeNodeName (name : GoStr) : GoStr :=
  if (name.map sanitizeByte).length > 50 then (name.map sanitizeByte).take 50
  else name.map sanitizeByte

/-- The pod name derived for a node, as built in CreateTestPods:
podName := testPodPrefix + sanitizeNodeName(node.Name). -/
def podNameFor (nodeName : GoStr) : GoStr :=
  gostr "nettest-" ++ sanitizeNodeName nodeName

/-- A byte allowed in a sanitized name: lowercase letter, digit or dash. -/
def goodByte (c : Nat) : Prop :=
  (97 ≤ c ∧ c ≤ 122) ∨ (48 ≤ c ∧ c ≤ 57) ∨ c = 45

instance (c : Nat) : Decidable (goodByte c) := by
  unfold goodByte
  infer_instance

theorem sanitizeByte_good (c : Nat) : goodByte (sanitizeByte c) := by
  unfold sanitizeByte
  split
  · rename_i h
    exact h
  · split
    · rename_i h1 h2
      unfold goodByte
      left
      omega
    · decide

theorem sanitizeByte_id_of_good (c : Nat) (h : goodByte c) : sanitizeByte c = c := by
  unfold sanitizeByte
  simp [goodByte] at h
  simp [h]

theorem sanitizeNodeName_id (name : GoStr) (hgood : ∀ c ∈ name, goodByte c)
    (hlen : name.length ≤ 50) : sanitizeNodeName name = name := by
  unfold sanitizeNodeName
  have hmap : name.map sanitizeByte = name := by
    induction name with
    | nil => rfl
    | cons a l ih =>
      simp only [List.map_cons]
      rw [sanitizeByte_id_of_good a (hgood a (by simp))]
      rw [ih (fun c hc => hgood c (by simp [hc])) (by simp at hlen; omega)]
  rw [hmap]
  have hn : ¬ name.length > 50 := by omega
  simp only [hn, if_false]

/-- Claim C3 (amended): every byte of a sanitized node name is a lowercase
letter, a digit or a dash, the sanitized name is at most 50 bytes long, a
node name that is already in that canonical form (and at most 50 bytes) is
left unchanged, and derived pod names of two distinct canonical node names
are distinct.  (Distinctness fails for general node names, see the
counterexample.) -/
theorem sanitizeNodeName_valid (name : GoStr) :
    (∀ c ∈ sanitizeNodeName name, goodByte c) ∧
    (sanitizeNodeName name).length ≤ 50 ∧
    ((∀ c ∈ name, goodByte c) → name.length ≤ 50 → sanitizeNodeName name = name) ∧
    (∀ other : GoStr, (∀ c ∈ name, goodByte c) → name.length ≤ 50 →
      (∀ c ∈ other, goodByte c) → other.length ≤ 50 →
      ¬ name = other → ¬ podNameFor name = podNameFor other) := by
  refine ⟨?_, ?_, ?_, ?_⟩
  · intro c hc
    unfold sanitizeNodeName at hc
    split at hc
    · have := List.mem_of_mem_take hc
      obtain ⟨a, _, rfl⟩ := List.mem_map.mp this
      exact sanitizeByte_good a
    · obtain ⟨a, _, rfl⟩ := List.mem_map.mp hc
      exact sanitizeByte_good a
  · unfold sanitizeNodeName
    split
    · simp
    · rename_i h
      simp only [List.length_map] at h ⊢
      omega
  · exact sanitizeNodeName_id name
  · intro other h1 h2 h3 h4 hne heq
    unfold podNameFor at heq
    rw [sanitizeNodeName_id name h1 h2, sanitizeNodeName_id other h3 h4] at heq
    exact hne (List.append_cancel_left heq)

/-- Witness for C3: a canonical node name is left unchanged by sanitization,
and two distinct canonical node names derive distinct pod names. -/
theorem sanitizeNodeName_valid_witness :
    sanitizeNodeName (gostr "node-1") = gostr "node-1" ∧
    ¬ podNameFor (gostr "node-a") = podNameFor (gostr "node-b") :=
  ⟨(sanitizeNodeName_valid (gostr "node-1")).2.2.1 (by decide) (by decide),
   (sanitizeNodeName_valid (gostr "node-a")).2.2.2 (gostr "node-b")
     (by decide) (by decide) (by decide) (by decide) (by decide)⟩

/-- Counterexample for C3 as stated: the node names a.b and a_b are distinct
but sanitize to the same string, hence derive the same pod name. -/
theorem sanitizeNodeName_not_injective :
    ¬ gostr "a.b" = gostr "a_b" ∧
    sanitizeNodeName (gostr "a.b") = sanitizeNodeName (gostr "a_b") ∧
    podNameFor (gostr "a.b") = podNameFor (gostr "a_b") := by
  decide

/-- A node condition, after corev1.NodeCondition; only the Type and Status
fields are read by the source.  The Go constants NodeReady and ConditionTrue
are the strings Ready and True. -/
structure NodeCondition where
  condType : GoStr
  status : GoStr
deriving DecidableEq, Repr

/-- A node address, after corev1.NodeAddress; NodeInternalIP is the string
InternalIP. -/
structure NodeAddress where
  addrType : GoStr
  address : GoStr
deriving DecidableEq, Repr

/-- A cluster node, after corev1.Node restricted to the fields the nettest
package reads: Name, Status.Conditions and Status.Addresses. -/
structure Node where
  name : GoStr
  conditions : List NodeCondition
  addresses : List NodeAddress
deriving DecidableEq, Repr

/-- TestPod from the source. -/
structure TestPod where
  Name : GoStr
  NodeName : GoStr
  PodIP : GoStr
deriving DecidableEq, Repr

/-- TestResult from the source. -/
structure TestResult where
  SourceNode : GoStr
  SourcePod : GoStr
  TestType : GoStr
  Target : GoStr
  Success : Bool
  Error : GoStr
deriving DecidableEq, Repr

/-- TestSummary from the source. -/
structure TestSummary where
  Total : Nat
  Passed : Nat
  Failed : Nat
deriving DecidableEq, Repr

/-- NetworkTestReport from the source, without the wall-clock Timestamp
field (real time is outside the model). -/
structure NetworkTestReport where
  NodeCount : Nat
  PodCount : Nat
  TestResults : List TestResult
  Summary : TestSummary
deriving DecidableEq, Repr

/-- One invocation of the remote-exec collaborator ExecInPod:
pod name, namespace, argv. -/
structure ExecCall where
  pod : GoStr
  ns : GoStr
  cmd : List GoStr
deriving DecidableEq, Repr

/-- The remote-exec capability as an oracle: none is a nil error (the probe
command succeeded), some msg is an error whose Error() text is msg. -/
abbrev ExecOracle := ExecCall → Option GoStr

/-- The inner loop of filterReadyNodes: scan the conditions and report
whether one has Type Ready and Status True (the source breaks at the
first such condition). -/
def nodeIsReady : List NodeCondition → Bool
  | [] => false
  | c :: rest =>
    if c.condType = gostr "Ready" ∧ c.status = gostr "True" then true
    else nodeIsReady rest

/-- filterReadyNodes from the source: keep the nodes whose condition list
contains a Ready condition with status True. -/
def filterReadyNodes : List Node → List Node
  | [] => []
  | node :: rest =>
    if nodeIsReady node.conditions then node :: filterReadyNodes rest
    else filterReadyNodes rest

/-- TestCoreDNSConnectivity from the source: one nc probe to port 53 per
discovered DNS address. -/
def TestCoreDNSConnectivity (exec : ExecOracle) (pod : TestPod) :
    List GoStr → List TestResult
  | [] => []
  | ip :: rest =>
    let e := exec ⟨pod.Name, testNamespace,
      [gostr "nc", gostr "-z", gostr "-w", gostr "3", ip, gostr "53"]⟩
    { SourceNode := pod.NodeName, SourcePod := pod.Name,
      TestType := gostr "coredns", Target := ip ++ gostr ":53",
      Success := e.isNone, Error := e.getD [] } ::
    TestCoreDNSConnectivity exec pod rest

/-- TestDNSResolution from the source: one nslookup of github.com. -/
def TestDNSResolution (exec : ExecOracle) (pod : TestPod) : TestResult :=
  let e := exec ⟨pod.Name, testNamespace, [gostr "nslookup", gostr "github.com"]⟩
  { SourceNode := pod.NodeName, SourcePod := pod.Name,
    TestType := gostr "dns", Target := gostr "github.com",
    Success := e.isNone, Error := e.getD [] }

/-- TestExternalTCP from the source: one nc probe to github.com port 443. -/
def TestExternalTCP (exec : ExecOracle) (pod : TestPod) : TestResult :=
  let e := exec ⟨pod.Name, testNamespace,
    [gostr "nc", gostr "-z", gostr "-w", gostr "5", gostr "github.com", gostr "443"]⟩
  { SourceNode := pod.NodeName, SourcePod := pod.Name,
    TestType := gostr "external-tcp", Target := gostr "github.com:443",
    Success := e.isNone, Error := e.getD [] }

/-- TestKubeletConnectivity from the source: one nc probe to port 10250 per
entry of the node-IP map, skipping the entry whose key is the node name
of the source pod.  The Go map is modelled as an association list and iterated
in list order (Go map iteration order is unspecified). -/
def TestKubeletConnectivity (exec : ExecOracle) (pod : TestPod) :
    List (GoStr × GoStr) → List TestResult
  | [] => []
  | (nodeName, nodeIP) :: rest =>
    if nodeName = pod.NodeName then TestKubeletConnectivity exec pod rest
    else
      let e := exec ⟨pod.Name, testNamespace,
        [gostr "nc", gostr "-z", gostr "-w", gostr "3", nodeIP, gostr "10250"]⟩
      { SourceNode := pod.NodeName, SourcePod := pod.Name,
        TestType := gostr "kubelet",
        Target := nodeIP ++ gostr ":10250 (" ++ nodeName ++ gostr ")",
        Success := e.isNone, Error := e.getD [] } ::
      TestKubeletConnectivity exec pod rest

/-- TestPodToPod from the source: one nc probe to the fixed listener port
8080 per peer pod, skipping the entry whose Name is the name of the source pod. -/
def TestPodToPod (exec : ExecOracle) (sourcePod : TestPod) :
    List TestPod → List TestResult
  | [] => []
  | targetPod :: rest =>
    if targetPod.Name = sourcePod.Name then TestPodToPod exec sourcePod rest
    else
      let e := exec ⟨sourcePod.Name, testNamespace,
        [gostr "nc", gostr "-z", gostr "-w", gostr "3", targetPod.PodIP, gostr "8080"]⟩
      { SourceNode := sourcePod.NodeName, SourcePod := sourcePod.Name,
        TestType := gostr "pod-to-pod",
        Target := targetPod.PodIP ++ gostr ":8080 (" ++ targetPod.NodeName ++ gostr ")",
        Success := e.isNone, Error := e.getD [] } ::
      TestPodToPod exec sourcePod rest

/-- RunPodTests from the source: the five probe kinds in their fixed order. -/
def RunPodTests (exec : ExecOracle) (pod : TestPod) (coreDNSIPs : List GoStr)
    (nodeIPs : List (GoStr × GoStr)) (allPods : List TestPod) : List TestResult :=
  TestCoreDNSConnectivity exec pod coreDNSIPs ++
  [TestDNSResolution exec pod] ++
  [TestExternalTCP exec pod] ++
  TestKubeletConnectivity exec pod nodeIPs ++
  TestPodToPod exec pod allPods

/-- A container status, after corev1.ContainerStatus; only Ready is read. -/
structure ContainerStatus where
  ready : Bool
deriving DecidableEq, Repr

/-- The pod status fields read by the polling closure in WaitForPodsReady. -/
structure PodStatus where
  phase : GoStr
  containerStatuses : List ContainerStatus
  podIP : GoStr
deriving DecidableEq, Repr

/-- The polling closure inside WaitForPodsReady, for one poll: the argument
is the Get result (none models a Get error).  The closure returns true after
recording the pod IP exactly when the phase is Running and no container
status is unready; that is modelled as some ip, and a not-yet-ready poll as
none. -/
def waitForPodsReadyCheck (fetched : Option PodStatus) : Option GoStr :=
  match fetched with
  | none => none
  | some p =>
    if ¬ p.phase = gostr "Running" then none
    else if p.containerStatuses.any (fun cs => !cs.ready) then none
    else some p.podIP

theorem nodeIsReady_iff (conds : List NodeCondition) :
    nodeIsReady conds = true ↔
      ∃ c ∈ conds, c.condType = gostr "Ready" ∧ c.status = gostr "True" := by
  induction conds with
  | nil => simp [nodeIsReady]
  | cons c rest ih =>
    unfold nodeIsReady
    by_cases h : c.condType = gostr "Ready" ∧ c.status = gostr "True"
    · rw [if_pos h]
      constructor
      · intro _
        exact ⟨c, List.mem_cons_self c rest, h⟩
      · intro _
        rfl
    · rw [if_neg h, ih]
      constructor
      · rintro ⟨d, hd, hdp⟩
        exact ⟨d, List.mem_cons_of_mem c hd, hdp⟩
      · rintro ⟨d, hd, hdp⟩
        rcases List.mem_cons.mp hd with rfl | hd2
        · exact absurd hdp h
        · exact ⟨d, hd2, hdp⟩

/-- Claim C8: filterReadyNodes keeps a node exactly when one of its
conditions has Type Ready and Status True; nodes whose Ready condition is
False or Unknown, and nodes listing no Ready condition, are dropped. -/
theorem filterReadyNodes_mem (nodes : List Node) (n : Node) :
    n ∈ filterReadyNodes nodes ↔
      n ∈ nodes ∧
      ∃ c ∈ n.conditions, c.condType = gostr "Ready" ∧ c.status = gostr "True" := by
  induction nodes with
  | nil => simp [filterReadyNodes]
  | cons m rest ih =>
    unfold filterReadyNodes
    by_cases h : nodeIsReady m.conditions = true
    · rw [if_pos h]
      simp only [List.mem_cons]
      constructor
      · rintro (rfl | hm)
        · exact ⟨Or.inl rfl, (nodeIsReady_iff n.conditions).mp h⟩
        · obtain ⟨hmem, hex⟩ := ih.mp hm
          exact ⟨Or.inr hmem, hex⟩
      · rintro ⟨rfl | hmem, hex⟩
        · exact Or.inl rfl
        · exact Or.inr (ih.mpr ⟨hmem, hex⟩)
    · rw [if_neg h, ih]
      constructor
      · rintro ⟨hmem, hex⟩
        exact ⟨List.mem_cons_of_mem m hmem, hex⟩
      · rintro ⟨hmem, hex⟩
        rcases List.mem_cons.mp hmem with rfl | hm2
        · exact absurd ((nodeIsReady_iff n.conditions).mpr hex) h
        · exact ⟨hm2, hex⟩

/-- A node with an explicit (Ready, True) condition. -/
def readyNodeW : Node := ⟨gostr "a", [⟨gostr "Ready", gostr "True"⟩], []⟩

/-- A node whose Ready condition carries status False. -/
def notReadyNodeW : Node := ⟨gostr "b", [⟨gostr "Ready", gostr "False"⟩], []⟩

/-- Witness for C8: the explicitly ready node is kept. -/
theorem filterReadyNodes_mem_witness :
    readyNodeW ∈ filterReadyNodes [readyNodeW, notReadyNodeW] :=
  (filterReadyNodes_mem [readyNodeW, notReadyNodeW] readyNodeW).mpr (by decide)

/-- Claim C10: the per-poll readiness check accepts a pod as soon as its
phase is Running and every container status is ready, so a Running pod with
an empty container-status list is vacuously ready and its (possibly empty)
status IP is recorded unchanged. -/
theorem waitForPodsReadyCheck_vacuous (p : PodStatus) (ip : GoStr) :
    waitForPodsReadyCheck
      (some { phase := gostr "Running", containerStatuses := [], podIP := ip }) = some ip ∧
    waitForPodsReadyCheck (some p) =
      (if p.phase = gostr "Running" ∧ p.containerStatuses.all (fun cs => cs.ready) = true
       then some p.podIP else none) := by
  have hany : ∀ l : List ContainerStatus,
      (l.any fun cs => !cs.ready) = !(l.all fun cs => cs.ready) := by
    intro l
    induction l with
    | nil => rfl
    | cons a t iht => simp [List.any_cons, List.all_cons, iht, Bool.not_and]
  constructor
  · rfl
  · show (if ¬ p.phase = gostr "Running" then none
        else if (p.containerStatuses.any fun cs => !cs.ready) = true then none
        else some p.podIP) =
      (if p.phase = gostr "Running" ∧ (p.containerStatuses.all fun cs => cs.ready) = true
       then some p.podIP else none)
    rw [hany]
    by_cases hp : p.phase = gostr "Running"
    · cases hall : p.containerStatuses.all fun cs => cs.ready
      · simp [hp, hall]
      · simp [hp, hall]
    · simp [hp]

/-- Go map indexing nodeIPs[key] on the association-list model of the map. -/
def lookupIP : List (GoStr × GoStr) → GoStr → Option GoStr
  | [], _ => none
  | (k, v) :: rest, key => if k = key then some v else lookupIP rest key

theorem kubelet_result_origin (exec : ExecOracle) (pod : TestPod)
    (m : List (GoStr × GoStr)) :
    ∀ r ∈ TestKubeletConnectivity exec pod m,
      ∃ nm ip, (nm, ip) ∈ m ∧ ¬ nm = pod.NodeName ∧
        r.Target = ip ++ gostr ":10250 (" ++ nm ++ gostr ")" := by
  induction m with
  | nil =>
    intro r hr
    exact absurd hr (by simp [TestKubeletConnectivity])
  | cons q rest ih =>
    obtain ⟨k, v⟩ := q
    intro r hr
    unfold TestKubeletConnectivity at hr
    by_cases hk : k = pod.NodeName
    · rw [if_pos hk] at hr
      obtain ⟨nm, ip, hmem, hne, htg⟩ := ih r hr
      exact ⟨nm, ip, List.mem_cons_of_mem _ hmem, hne, htg⟩
    · rw [if_neg hk] at hr
      rcases List.mem_cons.mp hr with rfl | hr2
      · exact ⟨k, v, List.mem_cons_self _ _, hk, rfl⟩
      · obtain ⟨nm, ip, hmem, hne, htg⟩ := ih r hr2
        exact ⟨nm, ip, List.mem_cons_of_mem _ hmem, hne, htg⟩

theorem podToPod_result_origin (exec : ExecOracle) (pod : TestPod)
    (allPods : List TestPod) :
    ∀ r ∈ TestPodToPod exec pod allPods,
      ∃ t, t ∈ allPods ∧ ¬ t.Name = pod.Name ∧
        r.Target = t.PodIP ++ gostr ":8080 (" ++ t.NodeName ++ gostr ")" := by
  induction allPods with
  | nil =>
    intro r hr
    exact absurd hr (by simp [TestPodToPod])
  | cons t rest ih =>
    intro r hr
    unfold TestPodToPod at hr
    by_cases ht : t.Name = pod.Name
    · rw [if_pos ht] at hr
      obtain ⟨u, hmem, hne, htg⟩ := ih r hr
      exact ⟨u, List.mem_cons_of_mem _ hmem, hne, htg⟩
    · rw [if_neg ht] at hr
      rcases List.mem_cons.mp hr with rfl | hr2
      · exact ⟨t, List.mem_cons_self _ _, ht, rfl⟩
      · obtain ⟨u, hmem, hne, htg⟩ := ih r hr2
        exact ⟨u, List.mem_cons_of_mem _ hmem, hne, htg⟩

/-- Claim C5 (amended): kubelet results are computed only from node-IP map
entries whose key differs from the source node (the source entry is
skipped), and pod-to-pod results only from peer pods whose Name differs
from the source pod; consequently, whenever no other map entry carries the
internal IP of the source node, no kubelet probe targets that IP.  For
arbitrary maps in which another node shares that IP the literal claim
fails, see the counterexample. -/
theorem self_exclusion (exec : ExecOracle) (pod : TestPod)
    (m : List (GoStr × GoStr)) (allPods : List TestPod) :
    (TestKubeletConnectivity exec pod m =
      TestKubeletConnectivity exec pod
        (m.filter fun q => decide ¬(q.1 = pod.NodeName))) ∧
    (TestPodToPod exec pod allPods =
      TestPodToPod exec pod (allPods.filter fun t => decide ¬(t.Name = pod.Name))) ∧
    (∀ r ∈ TestKubeletConnectivity exec pod m,
      ∃ nm ip, (nm, ip) ∈ m ∧ ¬ nm = pod.NodeName ∧
        r.Target = ip ++ gostr ":10250 (" ++ nm ++ gostr ")") ∧
    (∀ srcIP, lookupIP m pod.NodeName = some srcIP →
      (∀ q ∈ m, q.2 = srcIP → q.1 = pod.NodeName) →
      ∀ nm ip, (nm, ip) ∈ m → ¬ nm = pod.NodeName → ¬ ip = srcIP) ∧
    (∀ r ∈ TestPodToPod exec pod allPods,
      ∃ t, t ∈ allPods ∧ ¬ t.Name = pod.Name ∧
        r.Target = t.PodIP ++ gostr ":8080 (" ++ t.NodeName ++ gostr ")") := by
  refine ⟨?_, ?_, kubelet_result_origin exec pod m, ?_, podToPod_result_origin exec pod allPods⟩
  · induction m with
    | nil => rfl
    | cons q rest ih =>
      obtain ⟨k, v⟩ := q
      by_cases hk : k = pod.NodeName
      · rw [List.filter_cons, if_neg (by simp [hk])]
        rw [TestKubeletConnectivity, if_pos hk]
        exact ih
      · rw [List.filter_cons, if_pos (by simp [hk])]
        simp only [TestKubeletConnectivity]
        rw [if_neg hk, if_neg hk, ih]
  · induction allPods with
    | nil => rfl
    | cons t rest ih =>
      by_cases ht : t.Name = pod.Name
      · rw [List.filter_cons, if_neg (by simp [ht])]
        rw [TestPodToPod, if_pos ht]
        exact ih
      · rw [List.filter_cons, if_pos (by simp [ht])]
        simp only [TestPodToPod]
        rw [if_neg ht, if_neg ht, ih]
  · intro srcIP hlk huniq nm ip hmem hne hip
    exact hne (huniq (nm, ip) hmem hip)

/-- A remote-exec oracle under which every probe command succeeds. -/
def execAllOk : ExecOracle := fun _ => none

/-- A workload pod on node n1, used in the C5 counterexample. -/
def cexPod : TestPod := ⟨gostr "nettest-n1", gostr "n1", gostr "10.244.0.5"⟩

/-- A node-IP map in which node n2 reports the same internal IP as the
source node n1. -/
def cexMap : List (GoStr × GoStr) :=
  [(gostr "n1", gostr "10.0.0.1"), (gostr "n2", gostr "10.0.0.1")]

/-- Counterexample for C5 as stated: with two nodes sharing the internal IP
10.0.0.1, the kubelet probe from the pod on n1 targets exactly that IP,
which is the internal IP of its own source node. -/
theorem self_exclusion_counterexample :
    lookupIP cexMap cexPod.NodeName = some (gostr "10.0.0.1") ∧
    (TestKubeletConnectivity execAllOk cexPod cexMap).map TestResult.Target =
      [gostr "10.0.0.1" ++ gostr ":10250 (" ++ gostr "n2" ++ gostr ")"] := by
  decide

/-- Oracle for the C5 witness. -/
def wExec5 : ExecOracle := fun _ => none

/-- Source pod for the C5 witness. -/
def wPod5 : TestPod := ⟨gostr "nettest-n1", gostr "n1", gostr "10.244.0.9"⟩

/-- Node-IP map with pairwise distinct IPs for the C5 witness. -/
def wMap5 : List (GoStr × GoStr) :=
  [(gostr "n1", gostr "1.1.1.1"), (gostr "n2", gostr "7.7.7.7")]

/-- Pod list for the C5 witness. -/
def wPods5 : List TestPod :=
  [wPod5, ⟨gostr "nettest-n2", gostr "n2", gostr "10.244.1.4"⟩]

/-- Witness for C5: on a two-node map with distinct IPs, the kubelet run is
unchanged by dropping the source entry, and the probed peer IP differs from
the internal IP of the source node. -/
theorem self_exclusion_witness :
    TestKubeletConnectivity wExec5 wPod5 wMap5 =
      TestKubeletConnectivity wExec5 wPod5
        (wMap5.filter fun q => decide ¬(q.1 = wPod5.NodeName)) ∧
    ¬ gostr "7.7.7.7" = gostr "1.1.1.1" :=
  ⟨(self_exclusion wExec5 wPod5 wMap5 wPods5).1,
   (self_exclusion wExec5 wPod5 wMap5 wPods5).2.2.2.1 (gostr "1.1.1.1")
     (by decide) (by decide) (gostr "n2") (gostr "7.7.7.7") (by decide) (by decide)⟩

/-- A TestResult whose Success flag and Error text come from one exec
outcome: Success is true exactly when the exec error was nil, and Error
is the error text (empty when nil), as every probe in tests.go records. -/
def resultFromExec (exec : ExecOracle) (r : TestResult) : Prop :=
  ∃ call, r.Success = (exec call).isNone ∧ r.Error = (exec call).getD []

theorem resultFromExec_link (exec : ExecOracle) (r : TestResult)
    (h : resultFromExec exec r) :
    (r.Success = true → r.Error = []) ∧
    ((∀ call msg, exec call = some msg → ¬ msg = []) →
      r.Success = false → ¬ r.Error = []) := by
  obtain ⟨call, hs, he⟩ := h
  cases hc : exec call with
  | none =>
    rw [hc] at hs he
    refine ⟨fun _ => by simpa using he, fun _ hfalse => ?_⟩
    rw [hfalse] at hs
    simp at hs
  | some msg =>
    rw [hc] at hs he
    constructor
    · intro htrue
      rw [htrue] at hs
      simp at hs
    · intro hne _
      rw [he]
      simpa using hne call msg hc

theorem coredns_fromExec (exec : ExecOracle) (pod : TestPod) (ips : List GoStr) :
    ∀ r ∈ TestCoreDNSConnectivity exec pod ips, resultFromExec exec r := by
  induction ips with
  | nil =>
    intro r hr
    exact absurd hr (by simp [TestCoreDNSConnectivity])
  | cons ip rest ih =>
    intro r hr
    rw [TestCoreDNSConnectivity] at hr
    rcases List.mem_cons.mp hr with rfl | hr2
    · exact ⟨_, rfl, rfl⟩
    · exact ih r hr2

theorem kubelet_fromExec (exec : ExecOracle) (pod : TestPod)
    (m : List (GoStr × GoStr)) :
    ∀ r ∈ TestKubeletConnectivity exec pod m, resultFromExec exec r := by
  induction m with
  | nil =>
    intro r hr
    exact absurd hr (by simp [TestKubeletConnectivity])
  | cons q rest ih =>
    obtain ⟨k, v⟩ := q
    intro r hr
    rw [TestKubeletConnectivity] at hr
    by_cases hk : k = pod.NodeName
    · rw [if_pos hk] at hr
      exact ih r hr
    · rw [if_neg hk] at hr
      rcases List.mem_cons.mp hr with rfl | hr2
      · exact ⟨_, rfl, rfl⟩
      · exact ih r hr2

theorem podToPod_fromExec (exec : ExecOracle) (pod : TestPod)
    (allPods : List TestPod) :
    ∀ r ∈ TestPodToPod exec pod allPods, resultFromExec exec r := by
  induction allPods with
  | nil =>
    intro r hr
    exact absurd hr (by simp [TestPodToPod])
  | cons t rest ih =>
    intro r hr
    rw [TestPodToPod] at hr
    by_cases ht : t.Name = pod.Name
    · rw [if_pos ht] at hr
      exact ih r hr
    · rw [if_neg ht] at hr
      rcases List.mem_cons.mp hr with rfl | hr2
      · exact ⟨_, rfl, rfl⟩
      · exact ih r hr2

theorem runPodTests_fromExec (exec : ExecOracle) (pod : TestPod)
    (coreDNSIPs : List GoStr) (nodeIPs : List (GoStr × GoStr))
    (allPods : List TestPod) :
    ∀ r ∈ RunPodTests exec pod coreDNSIPs nodeIPs allPods, resultFromExec exec r := by
  intro r hr
  unfold RunPodTests at hr
  simp only [List.mem_append, List.mem_singleton] at hr
  rcases hr with ((((h1 | h2) | h3) | h4) | h5)
  · exact coredns_fromExec exec pod coreDNSIPs r h1
  · exact h2 ▸ ⟨_, rfl, rfl⟩
  · exact h3 ▸ ⟨_, rfl, rfl⟩
  · exact kubelet_fromExec exec pod nodeIPs r h4
  · exact podToPod_fromExec exec pod allPods r h5

theorem coredns_types (exec : ExecOracle) (pod : TestPod) (ips : List GoStr) :
    (TestCoreDNSConnectivity exec pod ips).map TestResult.TestType =
      ips.map fun _ => gostr "coredns" := by
  induction ips with
  | nil => rfl
  | cons ip rest ih =>
    rw [TestCoreDNSConnectivity]
    simp only [List.map_cons, ih]

theorem kubelet_types (exec : ExecOracle) (pod : TestPod)
    (m : List (GoStr × GoStr)) :
    (TestKubeletConnectivity exec pod m).map TestResult.TestType =
      (m.filter fun q => decide ¬(q.1 = pod.NodeName)).map fun _ =>
        gostr "kubelet" := by
  induction m with
  | nil => rfl
  | cons q rest ih =>
    obtain ⟨k, v⟩ := q
    by_cases hk : k = pod.NodeName
    · rw [TestKubeletConnectivity, if_pos hk, List.filter_cons,
        if_neg (by simp [hk])]
      exact ih
    · rw [TestKubeletConnectivity, if_neg hk, List.filter_cons,
        if_pos (by simp [hk])]
      simp only [List.map_cons, ih]

theorem podToPod_types (exec : ExecOracle) (pod : TestPod)
    (allPods : List TestPod) :
    (TestPodToPod exec pod allPods).map TestResult.TestType =
      (allPods.filter fun t => decide ¬(t.Name = pod.Name)).map fun _ =>
        gostr "pod-to-pod" := by
  induction allPods with
  | nil => rfl
  | cons t rest ih =>
    by_cases ht : t.Name = pod.Name
    · rw [TestPodToPod, if_pos ht, List.filter_cons, if_neg (by simp [ht])]
      exact ih
    · rw [TestPodToPod, if_neg ht, List.filter_cons, if_pos (by simp [ht])]
      simp only [List.map_cons, ih]

/-- Claim C9: for every exec oracle, RunPodTests yields the five probe kinds
in the fixed order coredns, dns, external-tcp, kubelet, pod-to-pod — the
shape of the result list is independent of any probe failures, so a failed
probe never aborts the rest of the sequence — and every result records the
exec outcome as data: Success true comes with empty Error text, and when no
exec error text is empty a failed result carries nonempty Error text. -/
theorem probe_failure_isolation (exec : ExecOracle) (pod : TestPod)
    (coreDNSIPs : List GoStr) (nodeIPs : List (GoStr × GoStr))
    (allPods : List TestPod) :
    ((RunPodTests exec pod coreDNSIPs nodeIPs allPods).map TestResult.TestType =
      (coreDNSIPs.map fun _ => gostr "coredns") ++
      [gostr "dns"] ++ [gostr "external-tcp"] ++
      ((nodeIPs.filter fun q => decide ¬(q.1 = pod.NodeName)).map fun _ =>
        gostr "kubelet") ++
      ((allPods.filter fun t => decide ¬(t.Name = pod.Name)).map fun _ =>
        gostr "pod-to-pod")) ∧
    (∀ r ∈ RunPodTests exec pod coreDNSIPs nodeIPs allPods,
      r.Success = true → r.Error = []) ∧
    ((∀ call msg, exec call = some msg → ¬ msg = []) →
      ∀ r ∈ RunPodTests exec pod coreDNSIPs nodeIPs allPods,
        r.Success = false → ¬ r.Error = []) := by
  refine ⟨?_, ?_, ?_⟩
  · unfold RunPodTests
    simp only [List.map_append, coredns_types, kubelet_types, podToPod_types]
    rfl
  · intro r hr
    exact (resultFromExec_link exec r
      (runPodTests_fromExec exec pod coreDNSIPs nodeIPs allPods r hr)).1
  · intro hne r hr
    exact (resultFromExec_link exec r
      (runPodTests_fromExec exec pod coreDNSIPs nodeIPs allPods r hr)).2 hne

/-- A remote-exec oracle under which every probe fails with error text boom. -/
def execBoom : ExecOracle := fun _ => some (gostr "boom")

/-- Source pod for the C9 witness. -/
def wPod9 : TestPod := ⟨gostr "nettest-n", gostr "n", []⟩

/-- The external-DNS result produced from wPod9 under execBoom. -/
def rDns9 : TestResult :=
  ⟨gostr "n", gostr "nettest-n", gostr "dns", gostr "github.com", false, gostr "boom"⟩

/-- Witness for C9: under the all-failing oracle the dns result is present,
marked failed, and its nonempty error text is the exec error. -/
theorem probe_failure_isolation_witness : ¬ rDns9.Error = [] :=
  (probe_failure_isolation execBoom wPod9 [] [] []).2.2
    (fun call msg hm => by
      simp only [execBoom, Option.some.injEq] at hm
      rw [← hm]
      decide)
    rDns9 (by decide) (by decide)

/-- Outcome of one pod-creation API call in CreateTestPods: nil error,
an IsAlreadyExists error, or any other error. -/
inductive CreateOutcome where
  | ok
  | alreadyExists
  | otherError
deriving DecidableEq, Repr

/-- The loop body of CreateTestPods: walk the ready nodes, derive each pod
name, issue the create call; an IsAlreadyExists error is logged and the pod
reused, any other error returns nil and the wrapped error; otherwise the
TestPod (with empty PodIP) is appended. -/
def CreateTestPodsAux (create : GoStr → CreateOutcome) (acc : List TestPod) :
    List Node → Except String (List TestPod)
  | [] => Except.ok acc
  | node :: rest =>
    match create node.name with
    | CreateOutcome.otherError => Except.error "failed to create pod on node"
    | _ =>
      CreateTestPodsAux create
        (acc ++ [⟨podNameFor node.name, node.name, []⟩]) rest

/-- CreateTestPods from the source, with the per-node API outcome as an
oracle keyed by node name. -/
def CreateTestPods (create : GoStr → CreateOutcome) (nodes : List Node) :
    Except String (List TestPod) :=
  CreateTestPodsAux create [] nodes

theorem CreateTestPodsAux_ok (create : GoStr → CreateOutcome) (nodes : List Node)
    (acc : List TestPod)
    (h : ∀ node ∈ nodes, ¬ create node.name = CreateOutcome.otherError) :
    CreateTestPodsAux create acc nodes =
      Except.ok (acc ++ nodes.map fun node =>
        (⟨podNameFor node.name, node.name, []⟩ : TestPod)) := by
  induction nodes generalizing acc with
  | nil => simp [CreateTestPodsAux]
  | cons node rest ih =>
    have hn := h node (List.mem_cons_self _ _)
    rw [CreateTestPodsAux]
    cases hc : create node.name with
    | otherError => exact absurd hc hn
    | ok =>
      rw [ih _ (fun d hd => h d (List.mem_cons_of_mem _ hd))]
      simp
    | alreadyExists =>
      rw [ih _ (fun d hd => h d (List.mem_cons_of_mem _ hd))]
      simp

theorem CreateTestPodsAux_error (create : GoStr → CreateOutcome)
    (nodes : List Node) (acc : List TestPod)
    (h : ∃ node ∈ nodes, create node.name = CreateOutcome.otherError) :
    (CreateTestPodsAux create acc nodes).toOption = none := by
  induction nodes generalizing acc with
  | nil => simp at h
  | cons node rest ih =>
    rw [CreateTestPodsAux]
    cases hc : create node.name with
    | otherError => rfl
    | ok =>
      apply ih
      obtain ⟨d, hd, hderr⟩ := h
      rcases List.mem_cons.mp hd with rfl | hd2
      · rw [hc] at hderr
        exact absurd hderr (by decide)
      · exact ⟨d, hd2, hderr⟩
    | alreadyExists =>
      apply ih
      obtain ⟨d, hd, hderr⟩ := h
      rcases List.mem_cons.mp hd with rfl | hd2
      · rw [hc] at hderr
        exact absurd hderr (by decide)
      · exact ⟨d, hd2, hderr⟩

/-- Claim C6: when no node hits a creation error other than already-exists
(reuse), CreateTestPods returns exactly one TestPod per input node, in
order, so the pod count equals the ready-node count; when some node hits
any other creation error, CreateTestPods returns an error and no pod
list. -/
theorem CreateTestPods_spec (create : GoStr → CreateOutcome) (nodes : List Node) :
    ((∀ node ∈ nodes, ¬ create node.name = CreateOutcome.otherError) →
      CreateTestPods create nodes =
        Except.ok (nodes.map fun node =>
          (⟨podNameFor node.name, node.name, []⟩ : TestPod)) ∧
      (nodes.map fun node =>
        (⟨podNameFor node.name, node.name, []⟩ : TestPod)).length = nodes.length) ∧
    ((∃ node ∈ nodes, create node.name = CreateOutcome.otherError) →
      (CreateTestPods create nodes).toOption = none) := by
  constructor
  · intro h
    refine ⟨?_, by simp⟩
    unfold CreateTestPods
    rw [CreateTestPodsAux_ok create nodes [] h]
    simp
  · intro h
    exact CreateTestPodsAux_error create nodes [] h

/-- Creation oracle for the C6 witness: the second node already has a pod. -/
def wCreate6 : GoStr → CreateOutcome :=
  fun name => if name = gostr "n2" then CreateOutcome.alreadyExists else CreateOutcome.ok

/-- Creation oracle for the C6 witness hitting a non-already-exists error. -/
def wCreateBad6 : GoStr → CreateOutcome := fun _ => CreateOutcome.otherError

/-- Node list for the C6 witness. -/
def wNodes6 : List Node := [⟨gostr "n1", [], []⟩, ⟨gostr "n2", [], []⟩]

/-- Witness for C6: with one fresh pod and one reused pod the result has one
TestPod per node; with a hard creation error there is no pod list. -/
theorem CreateTestPods_spec_witness :
    CreateTestPods wCreate6 wNodes6 =
      Except.ok (wNodes6.map fun node =>
        (⟨podNameFor node.name, node.name, []⟩ : TestPod)) ∧
    (CreateTestPods wCreateBad6 wNodes6).toOption = none :=
  ⟨((CreateTestPods_spec wCreate6 wNodes6).1 (by decide)).1,
   (CreateTestPods_spec wCreateBad6 wNodes6).2 (by decide)⟩

/-- One iteration of the aggregation loop at the end of Run: Total is
always incremented, then Passed or Failed according to the Success flag. -/
def summarizeStep (s : TestSummary) (r : TestResult) : TestSummary :=
  if r.Success then { s with Total := s.Total + 1, Passed := s.Passed + 1 }
  else { s with Total := s.Total + 1, Failed := s.Failed + 1 }

/-- The aggregation loop of Run over the result list, starting from the
zero-valued TestSummary of the fresh report. -/
def summarize (results : List TestResult) : TestSummary :=
  results.foldl summarizeStep ⟨0, 0, 0⟩

theorem summarize_foldl (results : List TestResult) (s : TestSummary) :
    (results.foldl summarizeStep s).Total = s.Total + results.length ∧
    (results.foldl summarizeStep s).Passed =
      s.Passed + (results.filter fun r => r.Success).length ∧
    (results.foldl summarizeStep s).Failed =
      s.Failed + (results.filter fun r => !r.Success).length := by
  induction results generalizing s with
  | nil => simp
  | cons r rest ih =>
    obtain ⟨h1, h2, h3⟩ := ih (summarizeStep s r)
    simp only [List.foldl_cons, List.filter_cons, List.length_cons]
    cases hr : r.Success
    · have hstep : summarizeStep s r =
        { s with Total := s.Total + 1, Failed := s.Failed + 1 } := by
        simp [summarizeStep, hr]
      rw [hstep] at h1 h2 h3
      refine ⟨by rw [hstep, h1]; simp; omega, ?_, ?_⟩
      · rw [hstep, h2]
        simp
      · rw [hstep, h3]
        simp
        omega
    · have hstep : summarizeStep s r =
        { s with Total := s.Total + 1, Passed := s.Passed + 1 } := by
        simp [summarizeStep, hr]
      rw [hstep] at h1 h2 h3
      refine ⟨by rw [hstep, h1]; simp; omega, ?_, ?_⟩
      · rw [hstep, h2]
        simp
        omega
      · rw [hstep, h3]
        simp

theorem filter_partition_length (p : TestResult → Bool) (l : List TestResult) :
    (l.filter p).length + (l.filter fun r => !(p r)).length = l.length := by
  induction l with
  | nil => rfl
  | cons r rest ih =>
    simp only [List.filter_cons]
    cases hp : p r
    · simp only [hp, Bool.not_false, cond_true, if_neg, ite_true, ite_false]
      simp
      omega
    · simp only [hp, Bool.not_true, ite_true, ite_false]
      simp
      omega

/-- Claim C7: the TestSummary aggregated by the loop at the end of Run
satisfies Total = number of results, Passed = number of successful results,
Failed = number of failed results, and Passed + Failed = Total. -/
theorem summary_correct (results : List TestResult) :
    (summarize results).Total = results.length ∧
    (summarize results).Passed = (results.filter fun r => r.Success).length ∧
    (summarize results).Failed = (results.filter fun r => !r.Success).length ∧
    (summarize results).Passed + (summarize results).Failed =
      (summarize results).Total := by
  obtain ⟨h1, h2, h3⟩ := summarize_foldl results ⟨0, 0, 0⟩
  refine ⟨by simpa using h1, by simpa using h2, by simpa using h3, ?_⟩
  have hp := filter_partition_length (fun r => r.Success) results
  unfold summarize
  rw [h1, h2, h3]
  simpa using hp

/-- One endpoint subset: the IPs of its Addresses entries. -/
structure EndpointSubset where
  addresses : List GoStr
deriving DecidableEq, Repr

/-- An Endpoints object, as a list of subsets. -/
structure Endpoints where
  subsets : List EndpointSubset
deriving DecidableEq, Repr

/-- A kube-system pod as read by the fallback scan: Name, Status.Phase and
Status.PodIP. -/
structure SystemPod where
  name : GoStr
  phase : GoStr
  podIP : GoStr
deriving DecidableEq, Repr

/-- The control-plane API surface used by DiscoverCoreDNSPods, as oracles:
getEndpoints name is the Endpoints Get in kube-system (none models an
error), listSystemPods the kube-system pod List (none models an error). -/
structure DNSCluster where
  getEndpoints : GoStr → Option Endpoints
  listSystemPods : Option (List SystemPod)

/-- The fixed-priority service-name list from the source. -/
def serviceNames : List GoStr :=
  [gostr "kube-dns", gostr "coredns", gostr "rke2-coredns-rke2-coredns"]

/-- containsSubstring from the source: scan every window of the length of
substr. -/
def containsSubstring (s substr : GoStr) : Bool :=
  (List.range (s.length - substr.length + 1)).any fun i =>
    decide ((s.drop i).take substr.length = substr)

/-- contains from the source. -/
def contains (s substr : GoStr) : Bool :=
  decide (substr.length ≤ s.length) &&
    (decide (s = substr) || (decide (0 < s.length) && containsSubstring s substr))

/-- containsDNSComponent from the source. -/
def containsDNSComponent (name : GoStr) : Bool :=
  contains name (gostr "coredns") || contains name (gostr "kube-dns")

/-- The addresses one service name contributes: all subset addresses of its
Endpoints object, nothing on a Get error. -/
def endpointAddrs (c : DNSCluster) (name : GoStr) : List GoStr :=
  match c.getEndpoints name with
  | none => []
  | some eps => (eps.subsets.map EndpointSubset.addresses).flatten

/-- The service-name loop of DiscoverCoreDNSPods: walk the priority list
accumulating addresses, skip a name whose Get errors, and return as soon as
the accumulated list is nonempty; none models falling through the loop. -/
def svcLoop (c : DNSCluster) : List GoStr → List GoStr → Option (List GoStr)
  | [], _ => none
  | name :: rest, acc =>
    match c.getEndpoints name with
    | none => svcLoop c rest acc
    | some eps =>
      if 0 < (acc ++ (eps.subsets.map EndpointSubset.addresses).flatten).length
      then some (acc ++ (eps.subsets.map EndpointSubset.addresses).flatten)
      else svcLoop c rest (acc ++ (eps.subsets.map EndpointSubset.addresses).flatten)

/-- The fallback scan of DiscoverCoreDNSPods: kube-system pods whose name
contains a DNS component, are Running and carry a pod IP. -/
def fallbackIPs : List SystemPod → List GoStr
  | [] => []
  | p :: rest =>
    if containsDNSComponent p.name = true ∧ p.phase = gostr "Running" ∧ ¬ p.podIP = []
    then p.podIP :: fallbackIPs rest
    else fallbackIPs rest

/-- DiscoverCoreDNSPods from the source: the service-name lookup first, then
the fallback scan; a hard error when the pod List fails or the scan finds
nothing. -/
def DiscoverCoreDNSPods (c : DNSCluster) : Except String (List GoStr) :=
  match svcLoop c serviceNames [] with
  | some ips => Except.ok ips
  | none =>
    match c.listSystemPods with
    | none => Except.error "failed to list kube-system pods"
    | some pods =>
      if (fallbackIPs pods).length = 0 then Except.error "no CoreDNS pods found"
      else Except.ok (fallbackIPs pods)

/-- The fallback strategy finds zero addresses: the pod List failed, or the
scan of the listed pods produced an empty address list. -/
def fallbackFindsZero (c : DNSCluster) : Bool :=
  match c.listSystemPods with
  | none => true
  | some pods => (fallbackIPs pods).isEmpty

theorem svcLoop_none_iff (c : DNSCluster) (names : List GoStr) :
    svcLoop c names [] = none ↔ ∀ nm ∈ names, endpointAddrs c nm = [] := by
  induction names with
  | nil => simp [svcLoop]
  | cons name rest ih =>
    rw [svcLoop]
    cases hg : c.getEndpoints name with
    | none =>
      rw [ih]
      constructor
      · intro hall nm hnm
        rcases List.mem_cons.mp hnm with rfl | h2
        · simp [endpointAddrs, hg]
        · exact hall nm h2
      · intro hall nm hnm
        exact hall nm (List.mem_cons_of_mem _ hnm)
    | some eps =>
      have haddr : endpointAddrs c name = (eps.subsets.map EndpointSubset.addresses).flatten := by
        simp [endpointAddrs, hg]
      simp only [List.nil_append]
      by_cases hA : 0 < (eps.subsets.map EndpointSubset.addresses).flatten.length
      · rw [if_pos hA]
        constructor
        · intro h
          exact absurd h (by simp)
        · intro hall
          have := hall name (List.mem_cons_self _ _)
          rw [haddr] at this
          rw [this] at hA
          exact absurd hA (by simp)
      · rw [if_neg hA]
        have hAe : (eps.subsets.map EndpointSubset.addresses).flatten = [] := by
          cases h : (eps.subsets.map EndpointSubset.addresses).flatten with
          | nil => rfl
          | cons a t =>
            rw [h] at hA
            exact absurd (by simp) hA
        rw [hAe, ih]
        constructor
        · intro hall nm hnm
          rcases List.mem_cons.mp hnm with rfl | h2
          · rw [haddr, hAe]
          · exact hall nm h2
        · intro hall nm hnm
          exact hall nm (List.mem_cons_of_mem _ hnm)

/-- Claim C4: DiscoverCoreDNSPods errors exactly when the fixed-priority
service lookup contributes zero addresses and the fallback scan finds zero
addresses (a failed kube-system pod List finds zero); and probing an empty
cluster-DNS address set produces zero results, which is how Run proceeds
after a discovery error (it keeps the nil address slice and only logs). -/
theorem DiscoverCoreDNSPods_error_iff (c : DNSCluster) :
    ((DiscoverCoreDNSPods c).toOption = none ↔
      (∀ nm ∈ serviceNames, endpointAddrs c nm = []) ∧ fallbackFindsZero c = true) ∧
    (∀ exec pod, TestCoreDNSConnectivity exec pod [] = []) := by
  constructor
  · unfold DiscoverCoreDNSPods
    cases hs : svcLoop c serviceNames [] with
    | some ips =>
      simp only [Except.toOption]
      constructor
      · intro h
        exact absurd h (by simp)
      · rintro ⟨hall, _⟩
        have := (svcLoop_none_iff c serviceNames).mpr hall
        rw [hs] at this
        exact absurd this (by simp)
    | none =>
      have hall : ∀ nm ∈ serviceNames, endpointAddrs c nm = [] :=
        (svcLoop_none_iff c serviceNames).mp hs
      cases hl : c.listSystemPods with
      | none =>
        simp only [Except.toOption, fallbackFindsZero, hl]
        constructor
        · intro _
          exact ⟨hall, trivial⟩
        · intro _
          trivial
      | some pods =>
        simp only [fallbackFindsZero, hl]
        by_cases hez : (fallbackIPs pods).length = 0
        · rw [if_pos hez]
          simp only [Except.toOption]
          constructor
          · intro _
            refine ⟨hall, ?_⟩
            rw [List.isEmpty_iff]
            exact List.length_eq_zero.mp hez
          · intro _
            trivial
        · rw [if_neg hez]
          simp only [Except.toOption]
          constructor
          · intro h
            exact absurd h (by simp)
          · rintro ⟨_, hempty⟩
            rw [List.isEmpty_iff] at hempty
            exact absurd (List.length_eq_zero.mpr hempty) hez
  · intro exec pod
    rfl

/-- A cluster where every endpoint Get errors and kube-system lists no
pods, for the C4 witness. -/
def wCluster4 : DNSCluster := ⟨fun _ => none, some []⟩

/-- Witness for C4: with both strategies finding zero addresses, discovery
returns an error. -/
theorem DiscoverCoreDNSPods_error_iff_witness :
    (DiscoverCoreDNSPods wCluster4).toOption = none :=
  (DiscoverCoreDNSPods_error_iff wCluster4).1.mpr ⟨by decide, by decide⟩

/-- The inner loop of GetNodeInternalIPs: first address of type InternalIP
(the source breaks at the first one). -/
def firstInternalIP : List NodeAddress → Option GoStr
  | [] => none
  | a :: rest =>
    if a.addrType = gostr "InternalIP" then some a.address
    else firstInternalIP rest

/-- GetNodeInternalIPs from the source; the Go map is modelled as an
association list in node order, nodes without an internal address are
skipped. -/
def GetNodeInternalIPs : List Node → List (GoStr × GoStr)
  | [] => []
  | node :: rest =>
    match firstInternalIP node.addresses with
    | some ip => (node.name, ip) :: GetNodeInternalIPs rest
    | none => GetNodeInternalIPs rest

/-- RunAllTests from the source: one task per pod, each running RunPodTests;
the goroutine fan-out with its result lock is modelled as the deterministic
concatenation in pod order (the set of produced results does not depend on
the interleaving). -/
def RunAllTests (exec : ExecOracle) (pods : List TestPod)
    (coreDNSIPs : List GoStr) (nodeIPs : List (GoStr × GoStr)) : List TestResult :=
  (pods.map fun p => RunPodTests exec p coreDNSIPs nodeIPs pods).flatten

/-- The externally visible steps Run takes, in order: each constructor is
one call Run makes. -/
inductive RunEvent where
  | ensureNamespace
  | cleanupTestPods
  | listNodes
  | createTestPods
  | waitForPodsReady
  | startListeners
  | runTests
deriving DecidableEq, Repr

/-- The API outcomes a whole Run observes: whether EnsureNamespace succeeds,
the node List result (none models an API error), the per-node pod-creation
outcome, whether WaitForPodsReady succeeds within its timeout, the IP each
pod reports when ready, the discovery API surface, and the remote-exec
oracle. -/
structure RunOracle where
  ensureOk : Bool
  listResult : Option (List Node)
  create : GoStr → CreateOutcome
  waitOk : Bool
  podIPOf : GoStr → GoStr
  dns : DNSCluster
  exec : ExecOracle

/-- Run from the source, as the ordered list of calls it makes paired with
its return value.  The order follows the source exactly: EnsureNamespace;
then the best-effort CleanupTestPods call; then node listing and ready
filtering; CreateTestPods (on error: CleanupTestPods, return); the deferred
CleanupTestPods is registered next, so every later exit appends a final
cleanupTestPods event; WaitForPodsReady (on error: return via the defer);
then DiscoverCoreDNSPods (an error only drops the address set to nil),
GetNodeInternalIPs, StartListeners, RunAllTests and the aggregation loop. -/
def Run (o : RunOracle) : List RunEvent × Except String NetworkTestReport :=
  if o.ensureOk = false then
    ([RunEvent.ensureNamespace], Except.error "failed to create namespace")
  else
    match o.listResult with
    | none =>
      ([RunEvent.ensureNamespace, RunEvent.cleanupTestPods, RunEvent.listNodes],
       Except.error "failed to list nodes")
    | some items =>
      if (filterReadyNodes items).length = 0 then
        ([RunEvent.ensureNamespace, RunEvent.cleanupTestPods, RunEvent.listNodes],
         Except.error "no ready nodes found in cluster")
      else
        match CreateTestPods o.create (filterReadyNodes items) with
        | Except.error _ =>
          ([RunEvent.ensureNamespace, RunEvent.cleanupTestPods, RunEvent.listNodes,
            RunEvent.createTestPods, RunEvent.cleanupTestPods],
           Except.error "failed to create test pods")
        | Except.ok testPods =>
          if o.waitOk = false then
            ([RunEvent.ensureNamespace, RunEvent.cleanupTestPods, RunEvent.listNodes,
              RunEvent.createTestPods, RunEvent.waitForPodsReady,
              RunEvent.cleanupTestPods],
             Except.error "pods failed to become ready")
          else
            let readyPods := testPods.map fun p => { p with PodIP := o.podIPOf p.Name }
            let coreDNSIPs :=
              match DiscoverCoreDNSPods o.dns with
              | Except.ok ips => ips
              | Except.error _ => []
            let results :=
              RunAllTests o.exec readyPods coreDNSIPs
                (GetNodeInternalIPs (filterReadyNodes items))
            ([RunEvent.ensureNamespace, RunEvent.cleanupTestPods, RunEvent.listNodes,
              RunEvent.createTestPods, RunEvent.waitForPodsReady,
              RunEvent.startListeners, RunEvent.runTests, RunEvent.cleanupTestPods],
             Except.ok
               { NodeCount := (filterReadyNodes items).length,
                 PodCount := testPods.length,
                 TestResults := results,
                 Summary := summarize results })

/-- Namespace existence across one Run step: EnsureNamespace creates the
namespace; CleanupTestPods deletes it with foreground propagation and waits
for it to be gone, so afterwards it is absent (or at best terminating, in
which case pod creation into it is refused just the same); the other steps
do not touch it. -/
def nsAfter (nsExists : Bool) (e : RunEvent) : Bool :=
  match e with
  | RunEvent.ensureNamespace => true
  | RunEvent.cleanupTestPods => false
  | _ => nsExists

/-- A ready one-node cluster on which every API call succeeds, exercising
the full success path of Run. -/
def oC1 : RunOracle :=
  { ensureOk := true,
    listResult := some [⟨gostr "a", [⟨gostr "Ready", gostr "True"⟩], []⟩],
    create := fun _ => CreateOutcome.ok,
    waitOk := true,
    podIPOf := fun _ => gostr "10.244.0.7",
    dns := ⟨fun _ => none, none⟩,
    exec := fun _ => none }

/-- Claim C1 is contradicted by the code: on a fully successful run the call
order is EnsureNamespace first and the pre-cleanup CleanupTestPods second,
so replaying namespace existence over the events before CreateTestPods
(from either initial state) shows the diagnostic namespace is absent at the
moment the test pods are created into it. -/
theorem Run_namespace_absent_at_pod_creation :
    (Run oC1).1 =
      [RunEvent.ensureNamespace, RunEvent.cleanupTestPods, RunEvent.listNodes,
       RunEvent.createTestPods, RunEvent.waitForPodsReady,
       RunEvent.startListeners, RunEvent.runTests, RunEvent.cleanupTestPods] ∧
    (((Run oC1).1.takeWhile fun e => decide ¬(e = RunEvent.createTestPods)).foldl
        nsAfter false = false) ∧
    (((Run oC1).1.takeWhile fun e => decide ¬(e = RunEvent.createTestPods)).foldl
        nsAfter true = false) := by
  refine ⟨by decide, by decide, by decide⟩

/-- Claim C2: on every exit path that passes the namespace-creation step —
success, node-list failure, zero ready nodes, pod-creation failure and
readiness timeout — CleanupTestPods is invoked before Run returns. -/
theorem Run_cleanup_on_every_exit (o : RunOracle) (h : o.ensureOk = true) :
    RunEvent.cleanupTestPods ∈ (Run o).1 := by
  unfold Run
  rw [if_neg (by simp [h])]
  split
  · simp
  · split
    · simp
    · split
      · simp
      · split
        · simp
        · simp

/-- An oracle whose node listing fails, one of the discovery-error exits. -/
def oW2 : RunOracle :=
  { ensureOk := true,
    listResult := none,
    create := fun _ => CreateOutcome.ok,
    waitOk := true,
    podIPOf := fun _ => [],
    dns := ⟨fun _ => none, none⟩,
    exec := fun _ => none }

/-- Witness for C2: on the node-list-failure exit a CleanupTestPods call
still precedes the return. -/
theorem Run_cleanup_on_every_exit_witness :
    RunEvent.cleanupTestPods ∈ (Run oW2).1 :=
  Run_cleanup_on_every_exit oW2 rfl

end ClusterProbe
